import Mathlib

/-!
Verification development for the BookFinder repository.

Shallow embedding of the edition-resolution and profitability-scoring
pipeline: the `BookISBNLookup` resolver, the `BoekenbalieAPI` buy-back
client (including its rate limiter), the `BookProfitabilityChecker`,
the Gemini detector's validation step, and the `analyze.generate`
orchestration from `app.py`.  External HTTP responses are passed in as
explicit parameters; Python floats are modelled as rationals; fallible
code returns `Option`.
-/

namespace BookFinder

/-! ## Resolver: `BookISBNLookup.find_all_isbns` (book_profitability_checker.py) -/

/-- One entry of `volumeInfo.industryIdentifiers` in a raw catalog record. -/
structure RawIdent where
  type : Option String
  identifier : String
deriving DecidableEq

/-- One raw catalog item as consumed by `_fetch` inside `find_all_isbns`:
the fields read from `item.get('saleInfo', ...)` and `item.get('volumeInfo', ...)`.
`none` models an absent JSON key (the code reads every field with `.get` and
a default). -/
structure RawVolume where
  isEbook : Option Bool
  printTypeField : Option String
  industryIdentifiers : List RawIdent
  titleField : Option String
  authorsField : List String
  publisherField : Option String
  publishedDateField : Option String
  languageField : Option String
deriving DecidableEq

/-- The edition dictionary appended to `editions` by `_fetch`. -/
structure Edition where
  isbn : String
  isbn_13 : Option String
  isbn_10 : Option String
  title : String
  authors : List String
  publisher : String
  published_date : String
  language : String
deriving DecidableEq

/-- Python truthiness of an optional string (`None` and `''` are falsy). -/
def pyStrTruthy : Option String → Bool
  | none => false
  | some s => !(s == "")

/-- Python `a or b` on optional strings. -/
def pyOrStr (a b : Option String) : Option String :=
  if pyStrTruthy a then a else b

/-- Python `str.strip()`: drop leading and trailing whitespace.  Defined on
the underlying character list so that it evaluates by kernel reduction. -/
def pyStrip (s : String) : String :=
  ⟨((s.data.dropWhile Char.isWhitespace).reverse.dropWhile Char.isWhitespace).reverse⟩

/-- The edition built from one raw volume (the `editions.append({...})` payload),
or `none` when the item is filtered out (ebook, non-BOOK print type, or no
usable isbn).  The dedup-by-`seen` test is *not* applied here. -/
def volEditionOpt (searchTitle : String) (vol : RawVolume) : Option Edition :=
  if vol.isEbook.getD false then none
  else if !(vol.printTypeField.getD "BOOK" == "BOOK") then none
  else
    let isbn13 := (vol.industryIdentifiers.find? (fun x => x.type == some "ISBN_13")).map (·.identifier)
    let isbn10 := (vol.industryIdentifiers.find? (fun x => x.type == some "ISBN_10")).map (·.identifier)
    let isbnOpt := pyOrStr isbn13 isbn10
    if pyStrTruthy isbnOpt then
      some
        { isbn := isbnOpt.getD ""
          isbn_13 := isbn13
          isbn_10 := isbn10
          title := vol.titleField.getD searchTitle
          authors := vol.authorsField
          publisher := vol.publisherField.getD ""
          published_date := vol.publishedDateField.getD ""
          language := vol.languageField.getD "" }
    else none

/-- One loop iteration of `_fetch`: state is `(seen, editions)`; the edition is
appended (and its isbn added to `seen`) unless filtered out or already seen. -/
def addVolume (searchTitle : String) (st : List String × List Edition) (vol : RawVolume) :
    List String × List Edition :=
  match volEditionOpt searchTitle vol with
  | none => st
  | some e => if e.isbn ∈ st.1 then st else (st.1 ++ [e.isbn], st.2 ++ [e])

/-- One `_fetch` pass.  `resp = none` models a non-200 status or a raised
exception (the pass contributes nothing); `resp = some items` models a parsed
200 response with `data.get('items', []) = items`. -/
def fetchPass (searchTitle : String) (st : List String × List Edition)
    (resp : Option (List RawVolume)) : List String × List Edition :=
  match resp with
  | none => st
  | some items => items.foldl (addVolume searchTitle) st

/-- The `editions` list accumulated by the two `_fetch` passes of
`find_all_isbns`, before the language re-ordering. -/
def resolvedEditions (title : String) (p1 p2 : Option (List RawVolume)) : List Edition :=
  (fetchPass title (fetchPass title ([], []) p1) p2).2

/-- `BookISBNLookup.find_all_isbns`, with the two catalog responses passed in
as `p1` (the `langRestrict: nl` pass) and `p2` (the unrestricted pass). -/
def find_all_isbns (title : String) (author : Option String)
    (p1 p2 : Option (List RawVolume)) : List Edition :=
  let queryParts :=
    (if !(title == "") then ["intitle:" ++ title] else [])
      ++ (if pyStrTruthy author then ["inauthor:" ++ (author.getD "")] else [])
  if queryParts = [] then []
  else
    let eds := resolvedEditions title p1 p2
    eds.filter (fun e => e.language == "nl") ++ eds.filter (fun e => !(e.language == "nl"))

/-- The stream of extractable editions across both passes, in fetch order,
*without* deduplication. -/
def rawEditionStream (title : String) (p1 p2 : Option (List RawVolume)) : List Edition :=
  ((p1.getD []) ++ (p2.getD [])).filterMap (volEditionOpt title)

/-- Modelled from the spec's words: "Deduplicates by isbn across both query
passes (first occurrence wins)" — keep each edition whose isbn has not
occurred earlier in the stream. -/
def specDedupByIsbn (l : List Edition) : List Edition :=
  l.foldl (fun acc e => if acc.any (fun d => d.isbn == e.isbn) then acc else acc ++ [e]) []

/-! ### Resolver lemmas -/

/-- The dedup step used by `specDedupByIsbn`. -/
def dedupStep (acc : List Edition) (e : Edition) : List Edition :=
  if acc.any (fun d => d.isbn == e.isbn) then acc else acc ++ [e]

theorem specDedupByIsbn_eq_foldl (l : List Edition) :
    specDedupByIsbn l = l.foldl dedupStep [] := rfl

theorem any_isbn_eq_mem_map (eds : List Edition) (s : String) :
    eds.any (fun d => d.isbn == s) = true ↔ s ∈ eds.map (·.isbn) := by
  simp only [List.any_eq_true, List.mem_map, beq_iff_eq]

theorem foldl_addVolume_pair (t : String) (vols : List RawVolume) (eds : List Edition) :
    vols.foldl (addVolume t) (eds.map (·.isbn), eds)
      = (((vols.filterMap (volEditionOpt t)).foldl dedupStep eds).map (·.isbn),
          (vols.filterMap (volEditionOpt t)).foldl dedupStep eds) := by
  induction vols generalizing eds with
  | nil => rfl
  | cons v vs ih =>
    simp only [List.foldl_cons, List.filterMap_cons]
    cases hv : volEditionOpt t v with
    | none => simpa [addVolume, hv] using ih eds
    | some e =>
      by_cases hm : e.isbn ∈ eds.map (·.isbn)
      · have hstep : dedupStep eds e = eds := by
          unfold dedupStep
          rw [if_pos ((any_isbn_eq_mem_map eds e.isbn).mpr hm)]
        have hadd : addVolume t (eds.map (·.isbn), eds) v = (eds.map (·.isbn), eds) := by
          unfold addVolume
          rw [hv]
          dsimp only
          rw [if_pos hm]
        rw [hadd, List.foldl_cons, hstep]
        exact ih eds
      · have hstep : dedupStep eds e = eds ++ [e] := by
          unfold dedupStep
          rw [if_neg]
          intro hc
          exact hm ((any_isbn_eq_mem_map eds e.isbn).mp hc)
        have hadd : addVolume t (eds.map (·.isbn), eds) v
            = ((eds ++ [e]).map (·.isbn), eds ++ [e]) := by
          unfold addVolume
          rw [hv]
          dsimp only
          rw [if_neg hm]
          simp
        rw [hadd, List.foldl_cons, hstep]
        exact ih (eds ++ [e])

theorem fetchPass_eq_dedup (t : String) (resp : Option (List RawVolume)) (eds : List Edition) :
    fetchPass t (eds.map (·.isbn), eds) resp
      = ((((resp.getD []).filterMap (volEditionOpt t)).foldl dedupStep eds).map (·.isbn),
          ((resp.getD []).filterMap (volEditionOpt t)).foldl dedupStep eds) := by
  cases resp with
  | none => simp [fetchPass]
  | some items => exact foldl_addVolume_pair t items eds

/-- First-occurrence deduplication: the accumulated edition list equals the
spec's dedup of the raw fetch-order stream. -/
theorem resolvedEditions_eq_spec (t : String) (p1 p2 : Option (List RawVolume)) :
    resolvedEditions t p1 p2 = specDedupByIsbn (rawEditionStream t p1 p2) := by
  unfold resolvedEditions
  have h0 : (([], []) : List String × List Edition) = (([] : List Edition).map (·.isbn), []) := rfl
  rw [h0, fetchPass_eq_dedup, fetchPass_eq_dedup]
  rw [specDedupByIsbn_eq_foldl, rawEditionStream, List.filterMap_append, List.foldl_append]

theorem nodup_foldl_dedupStep (l : List Edition) (acc : List Edition)
    (h : (acc.map (·.isbn)).Nodup) :
    (((l.foldl dedupStep acc)).map (·.isbn)).Nodup := by
  induction l generalizing acc with
  | nil => exact h
  | cons e es ih =>
    rw [List.foldl_cons]
    apply ih
    unfold dedupStep
    by_cases hm : acc.any (fun d => d.isbn == e.isbn) = true
    · rw [if_pos hm]; exact h
    · rw [if_neg hm]
      have hnm : e.isbn ∉ acc.map (·.isbn) := fun hc =>
        hm ((any_isbn_eq_mem_map acc e.isbn).mpr hc)
      simp only [List.map_append, List.map_cons, List.map_nil]
      simp [List.nodup_append, h, hnm]

theorem resolvedEditions_isbn_nodup (t : String) (p1 p2 : Option (List RawVolume)) :
    ((resolvedEditions t p1 p2).map (·.isbn)).Nodup := by
  rw [resolvedEditions_eq_spec, specDedupByIsbn_eq_foldl]
  exact nodup_foldl_dedupStep _ [] (by simp)

theorem find_all_isbns_eq_append (title : String) (author : Option String)
    (p1 p2 : Option (List RawVolume)) (h : ¬(title = "" ∧ pyStrTruthy author = false)) :
    find_all_isbns title author p1 p2
      = (resolvedEditions title p1 p2).filter (fun e => e.language == "nl")
        ++ (resolvedEditions title p1 p2).filter (fun e => !(e.language == "nl")) := by
  by_cases ht : (title == "") = true
  · have ht' : title = "" := by simpa using ht
    have ha : pyStrTruthy author = true := by
      cases hpa : pyStrTruthy author
      · exact absurd ⟨ht', hpa⟩ h
      · rfl
    simp [find_all_isbns, ht, ha]
  · simp [find_all_isbns, ht]

theorem filter_nl_part (eds : List Edition) :
    ((eds.filter (fun e => e.language == "nl"))
        ++ (eds.filter (fun e => !(e.language == "nl")))).filter (fun e => e.language == "nl")
      = eds.filter (fun e => e.language == "nl") := by
  rw [List.filter_append]
  have h1 : (eds.filter (fun e => e.language == "nl")).filter (fun e => e.language == "nl")
      = eds.filter (fun e => e.language == "nl") :=
    List.filter_eq_self.mpr (fun a ha => (List.mem_filter.mp ha).2)
  have h2 : (eds.filter (fun e => !(e.language == "nl"))).filter (fun e => e.language == "nl")
      = [] := by
    rw [List.filter_eq_nil_iff]
    intro a ha
    have := (List.mem_filter.mp ha).2
    simpa using this
  rw [h1, h2, List.append_nil]

theorem filter_other_part (eds : List Edition) :
    ((eds.filter (fun e => e.language == "nl"))
        ++ (eds.filter (fun e => !(e.language == "nl")))).filter (fun e => !(e.language == "nl"))
      = eds.filter (fun e => !(e.language == "nl")) := by
  rw [List.filter_append]
  have h1 : (eds.filter (fun e => e.language == "nl")).filter (fun e => !(e.language == "nl"))
      = [] := by
    rw [List.filter_eq_nil_iff]
    intro a ha
    have := (List.mem_filter.mp ha).2
    simpa using this
  have h2 : (eds.filter (fun e => !(e.language == "nl"))).filter (fun e => !(e.language == "nl"))
      = eds.filter (fun e => !(e.language == "nl")) :=
    List.filter_eq_self.mpr (fun a ha => (List.mem_filter.mp ha).2)
  rw [h1, h2, List.nil_append]

/-- C1: the edition list returned by `find_all_isbns` has no duplicate isbns;
it is exactly its preferred-language (`nl`) block followed by its
other-language block; the accumulated editions are the first-occurrence
deduplication of the fetch-order stream across both passes; and whenever a
query is actually issued, each language block keeps the (deduplicated)
fetch order. -/
theorem C1_find_all_isbns_dedup_language_order (title : String) (author : Option String)
    (p1 p2 : Option (List RawVolume)) :
    ((find_all_isbns title author p1 p2).map (·.isbn)).Nodup
    ∧ find_all_isbns title author p1 p2
        = (find_all_isbns title author p1 p2).filter (fun e => e.language == "nl")
          ++ (find_all_isbns title author p1 p2).filter (fun e => !(e.language == "nl"))
    ∧ resolvedEditions title p1 p2 = specDedupByIsbn (rawEditionStream title p1 p2)
    ∧ (¬(title = "" ∧ pyStrTruthy author = false) →
        (find_all_isbns title author p1 p2).filter (fun e => e.language == "nl")
          = (specDedupByIsbn (rawEditionStream title p1 p2)).filter (fun e => e.language == "nl")
        ∧ (find_all_isbns title author p1 p2).filter (fun e => !(e.language == "nl"))
          = (specDedupByIsbn (rawEditionStream title p1 p2)).filter
              (fun e => !(e.language == "nl"))) := by
  by_cases hq : title = "" ∧ pyStrTruthy author = false
  · have hfind : find_all_isbns title author p1 p2 = [] := by
      rcases hq with ⟨ht, ha⟩
      subst ht
      simp [find_all_isbns, ha]
    refine ⟨by simp [hfind], by simp [hfind], resolvedEditions_eq_spec title p1 p2, ?_⟩
    intro hcon
    exact absurd hq hcon
  · have hsplit := find_all_isbns_eq_append title author p1 p2 hq
    have hperm : List.Perm (find_all_isbns title author p1 p2) (resolvedEditions title p1 p2) := by
      rw [hsplit]
      exact List.filter_append_perm _ _
    refine ⟨?_, ?_, resolvedEditions_eq_spec title p1 p2, ?_⟩
    · exact ((hperm.map (·.isbn)).nodup_iff).mpr (resolvedEditions_isbn_nodup title p1 p2)
    · rw [hsplit, filter_nl_part, filter_other_part]
    · intro _
      rw [hsplit, filter_nl_part, filter_other_part, resolvedEditions_eq_spec]
      exact ⟨rfl, rfl⟩

/-- A sample raw catalog volume: a Dutch physical book with an ISBN-13. -/
def sampleVolNl : RawVolume :=
  { isEbook := none
    printTypeField := none
    industryIdentifiers := [⟨some "ISBN_13", "9781111111111"⟩]
    titleField := some "Sample"
    authorsField := ["A. Author"]
    publisherField := none
    publishedDateField := none
    languageField := some "nl" }

theorem C1_find_all_isbns_dedup_language_order_witness :
    ((find_all_isbns "t" none (some [sampleVolNl]) none).map (·.isbn)).Nodup
    ∧ (find_all_isbns "t" none (some [sampleVolNl]) none).filter (fun e => e.language == "nl")
        = (specDedupByIsbn (rawEditionStream "t" (some [sampleVolNl]) none)).filter
            (fun e => e.language == "nl") :=
  ⟨(C1_find_all_isbns_dedup_language_order "t" none (some [sampleVolNl]) none).1,
    ((C1_find_all_isbns_dedup_language_order "t" none (some [sampleVolNl]) none).2.2.2
      (by decide)).1⟩

/-- C7 counterexample: with an empty title but a non-empty author the resolver
still issues an author-only query and can return a non-empty edition list. -/
theorem C7_empty_title_counterexample :
    find_all_isbns "" (some "A. Author") (some [sampleVolNl]) none ≠ [] := by decide

/-- C7 amended: `find_all_isbns` returns the empty sequence when the title is
empty *and* the author is absent or empty (the query-part list is empty);
an empty title alone does not force an empty result. -/
theorem C7_empty_query_returns_nil (p1 p2 : Option (List RawVolume)) :
    find_all_isbns "" none p1 p2 = [] ∧ find_all_isbns "" (some "") p1 p2 = [] :=
  ⟨rfl, rfl⟩

/-! ## Buy-back client: `BoekenbalieAPI` (boekenbalie_api.py) -/

/-- The parsed JSON body of the interest-check response, restricted to the
fields `check_book` reads (`interested`, `book_id`); `none` models an absent
key. -/
structure InterestBody where
  interested : Option Bool
  book_id : Option String
deriving DecidableEq

/-- The parsed JSON body of the price response.  `none` models an absent key
or an explicit `null` (the code treats both alike). -/
structure PriceBody where
  price : Option ℚ
  offer_price : Option ℚ
deriving DecidableEq

/-- Outcome of one HTTP request: a response with a status code and (for 200)
a possibly-unparseable JSON body (`none` = `.json()` raised), or a raised
transport exception. -/
inductive HttpResult (β : Type) where
  | resp (status : ℤ) (body : Option β)
  | exn (msg : String)
deriving DecidableEq

/-- `BoekenbalieAPI.check_interest`: 200 yields the parsed body, 404 yields
`None`, any other status yields `None`, and a raised exception is caught and
yields `None`. -/
def check_interest : HttpResult InterestBody → Option InterestBody
  | .resp status body =>
    if status = 200 then body
    else if status = 404 then none
    else none
  | .exn _ => none

/-- `BoekenbalieAPI.get_price`: on 200, `price` (fallback `offer_price`) in
minor units divided by 100; any other status or a raised exception yields
`None`. -/
def get_price : HttpResult PriceBody → Option ℚ
  | .resp status body =>
    if status = 200 then
      match body with
      | some b =>
        match b.price with
        | some p => some (p / 100)
        | none =>
          match b.offer_price with
          | some p => some (p / 100)
          | none => none
      | none => none
    else none
  | .exn _ => none

/-! ## `BookProfitabilityChecker.check_book` (book_profitability_checker.py) -/

/-- The result dictionary built by `check_book` (fields the app reads, plus
the profitability fields it fills in). -/
structure CheckBookResult where
  interested : Bool
  boekenbalie_price : Option ℚ
  profit : Option ℚ
  profit_margin : Option ℚ
  profitable : Bool
  book_info : Option InterestBody
deriving DecidableEq

/-- `BookProfitabilityChecker.check_book`, with the outcomes of the (up to
two) HTTP requests passed in as `iOut` and `pOut`. -/
def check_book (min_profit_margin pp : ℚ) (iOut : HttpResult InterestBody)
    (pOut : HttpResult PriceBody) : CheckBookResult :=
  let base : CheckBookResult :=
    { interested := false, boekenbalie_price := none, profit := none,
      profit_margin := none, profitable := false, book_info := none }
  match check_interest iOut with
  | none => base
  | some d =>
    let itr := d.interested.getD false
    let r1 := { base with interested := itr, book_info := some d }
    if itr = false then r1
    else if pyStrTruthy d.book_id then
      match get_price pOut with
      | none => r1
      | some pr =>
        let r2 := { r1 with boekenbalie_price := some pr }
        if 0 < pp then
          let profit := pr - pp
          { r2 with profit := some profit,
                    profit_margin := some (profit / pp * 100),
                    profitable := decide (min_profit_margin ≤ profit) }
        else r2
    else r1

/-! ## Per-edition probe results built in `analyze.generate` (app.py) -/

structure EditionProbeResult where
  isbn : String
  publisher : String
  published_date : String
  language : String
  interested : Bool
  sell_price : Option ℚ
  profit : Option ℚ
deriving DecidableEq

/-- One entry of `edition_results` in `analyze.generate`: built from the
edition `ed` and `res = checker.check_book(...)`. -/
def mkProbeResult (pp : ℚ) (ed : Edition) (res : CheckBookResult) : EditionProbeResult :=
  let interested := res.boekenbalie_price.isSome
  let sell := if interested then res.boekenbalie_price else none
  { isbn := ed.isbn
    publisher := ed.publisher
    published_date := ed.published_date
    language := ed.language
    interested := interested
    sell_price := sell
    profit := if interested then some (sell.getD 0 - pp) else none }

/-! ### C3: probe interest iff interest check and price lookup both succeed -/

/-- C3: the probe's `interested` flag is true exactly when the interest check
returns a body signalling interest with a truthy `book_id` and the price
lookup returns a price; a non-interested probe has null `sell_price` and
`profit`; an interested probe has `profit = sell_price - purchase_price`; and
a non-200 response or transport failure at either step yields
`interested = false` (the embedded functions are total — the exceptions are
caught, never propagated). -/
theorem C3_probe_interest_characterisation (mm pp : ℚ) (ed : Edition)
    (iOut : HttpResult InterestBody) (pOut : HttpResult PriceBody) :
    ((mkProbeResult pp ed (check_book mm pp iOut pOut)).interested = true ↔
      ∃ d, check_interest iOut = some d ∧ d.interested.getD false = true
        ∧ pyStrTruthy d.book_id = true ∧ (get_price pOut).isSome = true)
    ∧ ((mkProbeResult pp ed (check_book mm pp iOut pOut)).interested = false →
        (mkProbeResult pp ed (check_book mm pp iOut pOut)).sell_price = none
        ∧ (mkProbeResult pp ed (check_book mm pp iOut pOut)).profit = none)
    ∧ ((mkProbeResult pp ed (check_book mm pp iOut pOut)).interested = true →
        ∃ p, (mkProbeResult pp ed (check_book mm pp iOut pOut)).sell_price = some p
          ∧ (mkProbeResult pp ed (check_book mm pp iOut pOut)).profit = some (p - pp))
    ∧ (((∃ m, iOut = .exn m) ∨ ∃ s b, iOut = .resp s b ∧ s ≠ 200) →
        (mkProbeResult pp ed (check_book mm pp iOut pOut)).interested = false)
    ∧ (((∃ m, pOut = .exn m) ∨ ∃ s b, pOut = .resp s b ∧ s ≠ 200) →
        (mkProbeResult pp ed (check_book mm pp iOut pOut)).interested = false) := by
  have hkey : (mkProbeResult pp ed (check_book mm pp iOut pOut)).interested
      = (check_book mm pp iOut pOut).boekenbalie_price.isSome := rfl
  have hprice : (check_book mm pp iOut pOut).boekenbalie_price.isSome = true ↔
      ∃ d, check_interest iOut = some d ∧ d.interested.getD false = true
        ∧ pyStrTruthy d.book_id = true ∧ (get_price pOut).isSome = true := by
    unfold check_book
    cases hI : check_interest iOut with
    | none => simp
    | some d =>
      by_cases hitr : d.interested.getD false = false
      · simp [hitr]
      · rw [Bool.not_eq_false] at hitr
        by_cases hbid : pyStrTruthy d.book_id = true
        · cases hP : get_price pOut with
          | none => simp [hitr, hbid, hP]
          | some pr =>
            by_cases hpp : 0 < pp
            · simp [hitr, hbid, hP, hpp]
            · simp [hitr, hbid, hP, hpp]
        · simp [hitr, hbid]
  refine ⟨by rw [hkey]; exact hprice, ?_, ?_, ?_, ?_⟩
  · intro hfalse
    have : (check_book mm pp iOut pOut).boekenbalie_price.isSome = false := by
      rw [← hkey]; exact hfalse
    constructor
    · show (if (check_book mm pp iOut pOut).boekenbalie_price.isSome then _ else none) = none
      rw [this]
      simp
    · show (if (check_book mm pp iOut pOut).boekenbalie_price.isSome then _ else none) = none
      rw [this]
      simp
  · intro htrue
    have hs : (check_book mm pp iOut pOut).boekenbalie_price.isSome = true := by
      rw [← hkey]; exact htrue
    rcases Option.isSome_iff_exists.mp hs with ⟨p, hp⟩
    refine ⟨p, ?_, ?_⟩
    · show (if (check_book mm pp iOut pOut).boekenbalie_price.isSome then
          (check_book mm pp iOut pOut).boekenbalie_price else none) = some p
      rw [hs, if_pos rfl, hp]
    · show (if (check_book mm pp iOut pOut).boekenbalie_price.isSome then
          some ((if (check_book mm pp iOut pOut).boekenbalie_price.isSome then
            (check_book mm pp iOut pOut).boekenbalie_price else none).getD 0 - pp)
          else none) = some (p - pp)
      rw [hs]
      simp [hp]
  · intro hbad
    rw [hkey]
    have hci : check_interest iOut = none := by
      rcases hbad with ⟨m, rfl⟩ | ⟨s, b, rfl, hs⟩
      · rfl
      · simp [check_interest, hs]
    unfold check_book
    rw [hci]
    rfl
  · intro hbad
    rw [hkey]
    have hgp : get_price pOut = none := by
      rcases hbad with ⟨m, rfl⟩ | ⟨s, b, rfl, hs⟩
      · rfl
      · simp [get_price, hs]
    unfold check_book
    cases hI : check_interest iOut with
    | none => rfl
    | some d =>
      by_cases hitr : d.interested.getD false = false
      · simp [hitr]
      · rw [Bool.not_eq_false] at hitr
        by_cases hbid : pyStrTruthy d.book_id = true
        · simp [hitr, hbid, hgp]
        · simp [hitr, hbid]

/-- A sample edition used by witnesses. -/
def sampleEdition : Edition :=
  { isbn := "9781111111111", isbn_13 := some "9781111111111", isbn_10 := none,
    title := "Sample", authors := ["A. Author"], publisher := "", published_date := "",
    language := "nl" }

theorem C3_probe_interest_characterisation_witness :
    ∃ p, (mkProbeResult 2 sampleEdition
            (check_book 2 2 (HttpResult.resp 200 (some ⟨some true, some "bid"⟩))
              (HttpResult.resp 200 (some ⟨some 1000, none⟩)))).sell_price = some p
      ∧ (mkProbeResult 2 sampleEdition
            (check_book 2 2 (HttpResult.resp 200 (some ⟨some true, some "bid"⟩))
              (HttpResult.resp 200 (some ⟨some 1000, none⟩)))).profit = some (p - 2) :=
  (C3_probe_interest_characterisation 2 2 sampleEdition
      (HttpResult.resp 200 (some ⟨some true, some "bid"⟩))
      (HttpResult.resp 200 (some ⟨some 1000, none⟩))).2.2.1 (by decide)

/-! ## Python `max(..., key=...)` and the aggregation step of `analyze.generate` -/

/-- Python `max(x :: l, key=f)`: scan left to right, replacing the current
best only on a strictly greater key — ties keep the earlier element. -/
def pymax {α : Type} (f : α → ℚ) (x : α) (l : List α) : α :=
  l.foldl (fun b e => if f b < f e then e else b) x

theorem pymax_cons {α : Type} (f : α → ℚ) (x e : α) (es : List α) :
    pymax f x (e :: es) = pymax f (if f x < f e then e else x) es := rfl

theorem le_pymax_head {α : Type} (f : α → ℚ) (x : α) (l : List α) :
    f x ≤ f (pymax f x l) := by
  induction l generalizing x with
  | nil => exact le_refl _
  | cons e es ih =>
    rw [pymax_cons]
    by_cases h : f x < f e
    · rw [if_pos h]
      exact le_of_lt (lt_of_lt_of_le h (ih e))
    · rw [if_neg h]
      exact ih x

theorem le_pymax_of_mem {α : Type} (f : α → ℚ) {y x : α} {l : List α} (hy : y ∈ x :: l) :
    f y ≤ f (pymax f x l) := by
  induction l generalizing x with
  | nil =>
    rcases List.mem_singleton.mp hy with rfl
    exact le_refl _
  | cons e es ih =>
    rw [pymax_cons]
    rcases List.mem_cons.mp hy with rfl | hy'
    · by_cases h : f y < f e
      · rw [if_pos h]
        exact le_trans (le_of_lt h) (le_pymax_head f e es)
      · rw [if_neg h]
        exact le_pymax_head f y es
    · rcases List.mem_cons.mp hy' with rfl | hy''
      · by_cases h : f x < f y
        · rw [if_pos h]
          exact le_pymax_head f y es
        · rw [if_neg h]
          exact le_trans (le_of_not_lt h) (le_pymax_head f x es)
      · by_cases h : f x < f e
        · rw [if_pos h]
          exact ih (List.mem_cons_of_mem _ hy'')
        · rw [if_neg h]
          exact ih (List.mem_cons_of_mem _ hy'')

theorem pymax_mem {α : Type} (f : α → ℚ) (x : α) (l : List α) : pymax f x l ∈ x :: l := by
  induction l generalizing x with
  | nil => exact List.mem_singleton.mpr rfl
  | cons e es ih =>
    rw [pymax_cons]
    by_cases h : f x < f e
    · rw [if_pos h]
      exact List.mem_cons_of_mem x (ih e)
    · rw [if_neg h]
      rcases List.mem_cons.mp (ih x) with h' | h'
      · rw [h']
        exact List.mem_cons_self x _
      · exact List.mem_cons_of_mem _ (List.mem_cons_of_mem _ h')

/-- Stability of Python `max`: the returned element is the *first* element of
the list whose key reaches the maximum. -/
theorem pymax_find {α : Type} (f : α → ℚ) (x : α) (l : List α) :
    (x :: l).find? (fun e => decide (f (pymax f x l) ≤ f e)) = some (pymax f x l) := by
  induction l generalizing x with
  | nil => simp [pymax]
  | cons e es ih =>
    rw [pymax_cons]
    by_cases h : f x < f e
    · rw [if_pos h]
      have hxM : decide (f (pymax f e es) ≤ f x) = false := by
        simp [not_le.mpr (lt_of_lt_of_le h (le_pymax_head f e es))]
      simp only [List.find?_cons, hxM]
      exact ih e
    · rw [if_neg h]
      have ihx := ih x
      by_cases hMx : f (pymax f x es) ≤ f x
      · have hpred : decide (f (pymax f x es) ≤ f x) = true := by simp [hMx]
        simp only [List.find?_cons, hpred] at ihx ⊢
        exact ihx
      · have hpredx : decide (f (pymax f x es) ≤ f x) = false := by simp [hMx]
        have hprede : decide (f (pymax f x es) ≤ f e) = false := by
          simp only [decide_eq_false_iff_not, not_le]
          exact lt_of_le_of_lt (le_of_not_lt h) (lt_of_not_le hMx)
        simp only [List.find?_cons, hpredx, hprede] at ihx ⊢
        exact ihx

/-- The record appended to `books_with_isbn` in `analyze.generate`. -/
structure BookWithIsbn where
  title : String
  author : String
  isbns : List Edition
  confidence : ℚ
  detected_title : String
  detected_author : Option String
  shelf : ℤ
  position : ℤ
deriving DecidableEq

/-- The `entry` dictionary appended to `profitable` in `analyze.generate`. -/
structure BookEntry where
  title : String
  author : String
  isbn : String
  detected_title : String
  confidence : ℚ
  shelf : ℤ
  position : ℤ
  purchase_price : ℚ
  sell_price : ℚ
  profit : ℚ
  margin_percent : ℚ
  editions_checked : ℕ
  editions_bought : ℕ
  chance_percent : ℚ
  all_editions : List EditionProbeResult
deriving DecidableEq

/-- The key Python's `max(bought, key=lambda e: e['sell_price'])` uses;
within `bought` the `sell_price` is always present, so the `getD` default is
never observable. -/
def sellKey (e : EditionProbeResult) : ℚ := e.sell_price.getD 0

/-- The `edition_results` list built for one book in `analyze.generate`;
`checkRes` passes in the outcome of `checker.check_book` per isbn. -/
def appEditionResults (pp : ℚ) (book : BookWithIsbn)
    (checkRes : String → CheckBookResult) : List EditionProbeResult :=
  book.isbns.map (fun ed => mkProbeResult pp ed (checkRes ed.isbn))

/-- The `entry` built for one book once `bought = b :: bs` is non-empty. -/
def mkBookEntry (pp : ℚ) (book : BookWithIsbn) (edition_results : List EditionProbeResult)
    (b : EditionProbeResult) (bs : List EditionProbeResult) : BookEntry :=
  let best := pymax sellKey b bs
  let sell := sellKey best
  let profit := sell - pp
  { title := book.title
    author := book.author
    isbn := best.isbn
    detected_title := book.detected_title
    confidence := book.confidence
    shelf := book.shelf
    position := book.position
    purchase_price := pp
    sell_price := sell
    profit := profit
    margin_percent := if 0 < pp then profit / pp * 100 else 0
    editions_checked := edition_results.length
    editions_bought := (b :: bs).length
    chance_percent := ((b :: bs).length : ℚ) / (edition_results.length : ℚ) * 100
    all_editions := edition_results }

/-- Lines 179–209 of app.py for one book: skip when no edition is bought,
otherwise produce the aggregated entry. -/
def aggregateBook (pp : ℚ) (book : BookWithIsbn)
    (checkRes : String → CheckBookResult) : Option BookEntry :=
  match (appEditionResults pp book checkRes).filter (·.interested) with
  | [] => none
  | b :: bs => some (mkBookEntry pp book (appEditionResults pp book checkRes) b bs)

theorem aggregateBook_cons (pp : ℚ) (book : BookWithIsbn)
    (checkRes : String → CheckBookResult) (b : EditionProbeResult)
    (bs : List EditionProbeResult)
    (hb : (appEditionResults pp book checkRes).filter (·.interested) = b :: bs) :
    aggregateBook pp book checkRes
      = some (mkBookEntry pp book (appEditionResults pp book checkRes) b bs) := by
  unfold aggregateBook
  rw [hb]

/-- Within `bought`, every probe result carries a price. -/
theorem interested_sell_isSome (pp : ℚ) (book : BookWithIsbn)
    (checkRes : String → CheckBookResult) :
    ∀ e ∈ (appEditionResults pp book checkRes).filter (·.interested),
      e.sell_price.isSome = true := by
  intro e he
  have hm := List.mem_filter.mp he
  rcases List.mem_map.mp hm.1 with ⟨ed, _, rfl⟩
  have hint := hm.2
  simp only [mkProbeResult] at hint ⊢
  rw [if_pos hint]
  exact hint

/-- C2: when aggregation succeeds, the chosen best element is a member of
`bought` with the maximum `sell_price`; on ties it is the first such element
(Python `max` is a stable max); the emitted entry's `isbn` and `sell_price`
come from that element and its `profit` is `sell_price - purchase_price`. -/
theorem C2_best_edition_stable_max (pp : ℚ) (book : BookWithIsbn)
    (checkRes : String → CheckBookResult) (entry : BookEntry)
    (h : aggregateBook pp book checkRes = some entry) :
    ∃ b bs, (appEditionResults pp book checkRes).filter (·.interested) = b :: bs
      ∧ pymax sellKey b bs ∈ b :: bs
      ∧ (∀ e ∈ b :: bs, sellKey e ≤ sellKey (pymax sellKey b bs))
      ∧ (b :: bs).find? (fun e => decide (sellKey (pymax sellKey b bs) ≤ sellKey e))
          = some (pymax sellKey b bs)
      ∧ entry.isbn = (pymax sellKey b bs).isbn
      ∧ ∃ p, (pymax sellKey b bs).sell_price = some p
          ∧ entry.sell_price = p ∧ entry.profit = p - pp := by
  cases hb : (appEditionResults pp book checkRes).filter (·.interested) with
  | nil =>
    unfold aggregateBook at h
    rw [hb] at h
    exact Option.noConfusion h
  | cons b bs =>
    unfold aggregateBook at h
    rw [hb] at h
    have hentry : entry = mkBookEntry pp book (appEditionResults pp book checkRes) b bs :=
      (Option.some.inj h).symm
    subst hentry
    refine ⟨b, bs, rfl, pymax_mem _ _ _, fun e he => le_pymax_of_mem sellKey he,
      pymax_find _ _ _, rfl, ?_⟩
    have hsome : (pymax sellKey b bs).sell_price.isSome = true := by
      apply interested_sell_isSome pp book checkRes
      rw [hb]
      exact pymax_mem sellKey b bs
    rcases Option.isSome_iff_exists.mp hsome with ⟨p, hp⟩
    refine ⟨p, hp, ?_, ?_⟩
    · show sellKey (pymax sellKey b bs) = p
      simp [sellKey, hp]
    · show sellKey (pymax sellKey b bs) - pp = p - pp
      simp [sellKey, hp]

/-- C4: the emitted entry's `margin_percent` is `0` for `purchase_price ≤ 0`
and `profit / purchase_price * 100` otherwise; `chance_percent` is
`editions_bought / editions_checked * 100`; and both `editions_bought` and
`editions_checked` are at least 1, so no division by zero occurs. -/
theorem C4_margin_chance_denominators (pp : ℚ) (book : BookWithIsbn)
    (checkRes : String → CheckBookResult) (entry : BookEntry)
    (h : aggregateBook pp book checkRes = some entry) :
    (pp ≤ 0 → entry.margin_percent = 0)
    ∧ (0 < pp → entry.margin_percent = entry.profit / pp * 100)
    ∧ entry.chance_percent
        = (entry.editions_bought : ℚ) / (entry.editions_checked : ℚ) * 100
    ∧ 1 ≤ entry.editions_bought
    ∧ 1 ≤ entry.editions_checked := by
  cases hb : (appEditionResults pp book checkRes).filter (·.interested) with
  | nil =>
    unfold aggregateBook at h
    rw [hb] at h
    exact Option.noConfusion h
  | cons b bs =>
    unfold aggregateBook at h
    rw [hb] at h
    have hentry : entry = mkBookEntry pp book (appEditionResults pp book checkRes) b bs :=
      (Option.some.inj h).symm
    subst hentry
    refine ⟨?_, ?_, rfl, ?_, ?_⟩
    · intro hpp
      show (if 0 < pp then _ / pp * 100 else 0) = 0
      rw [if_neg (not_lt.mpr hpp)]
    · intro hpp
      show (if 0 < pp then (sellKey (pymax sellKey b bs) - pp) / pp * 100 else 0)
        = (sellKey (pymax sellKey b bs) - pp) / pp * 100
      rw [if_pos hpp]
    · show 1 ≤ (b :: bs).length
      simp
    · show 1 ≤ (appEditionResults pp book checkRes).length
      have hlen : (b :: bs).length ≤ (appEditionResults pp book checkRes).length :=
        hb ▸ List.length_filter_le _ _
      calc 1 ≤ (b :: bs).length := by simp
        _ ≤ _ := hlen

/-! ### Witness data: the spec's Harry Potter scenario -/

def edA : Edition :=
  { isbn := "A", isbn_13 := some "A", isbn_10 := none, title := "Harry Potter",
    authors := ["J.K. Rowling"], publisher := "", published_date := "", language := "nl" }

def edB : Edition :=
  { isbn := "B", isbn_13 := some "B", isbn_10 := none, title := "Harry Potter",
    authors := ["J.K. Rowling"], publisher := "", published_date := "", language := "en" }

def hpBook : BookWithIsbn :=
  { title := "Harry Potter", author := "J.K. Rowling", isbns := [edA, edB],
    confidence := 9/10, detected_title := "Harry Potter",
    detected_author := some "J.K. Rowling", shelf := 1, position := 1 }

/-- Probe outcomes: edition A not interested, edition B bought at 10.00. -/
def hpCheck : String → CheckBookResult := fun isbn =>
  if isbn == "B" then
    { interested := true, boekenbalie_price := some 10, profit := some 8,
      profit_margin := some 400, profitable := true, book_info := none }
  else
    { interested := false, boekenbalie_price := none, profit := none,
      profit_margin := none, profitable := false, book_info := none }

def hpProbeA : EditionProbeResult :=
  { isbn := "A", publisher := "", published_date := "", language := "nl",
    interested := false, sell_price := none, profit := none }

def hpProbeB : EditionProbeResult :=
  { isbn := "B", publisher := "", published_date := "", language := "en",
    interested := true, sell_price := some 10, profit := some 8 }

/-- The entry the aggregator produces in the scenario: isbn B, profit 8,
margin 400 percent, chance 50 percent. -/
def hpEntry : BookEntry :=
  { title := "Harry Potter", author := "J.K. Rowling", isbn := "B",
    detected_title := "Harry Potter", confidence := 9/10, shelf := 1, position := 1,
    purchase_price := 2, sell_price := 10, profit := 8, margin_percent := 400,
    editions_checked := 2, editions_bought := 1, chance_percent := 50,
    all_editions := [hpProbeA, hpProbeB] }

/-- Evaluating the aggregator on the scenario. -/
theorem hpAggregate_eq : aggregateBook 2 hpBook hpCheck = some hpEntry := by
  have hpa : mkProbeResult 2 edA (hpCheck "A") = hpProbeA := rfl
  have hpb : mkProbeResult 2 edB (hpCheck "B") = hpProbeB := by
    norm_num [mkProbeResult, hpCheck, edB, hpProbeB]
  have happ : appEditionResults 2 hpBook hpCheck = [hpProbeA, hpProbeB] := by
    have hlist : appEditionResults 2 hpBook hpCheck
        = [mkProbeResult 2 edA (hpCheck "A"), mkProbeResult 2 edB (hpCheck "B")] := rfl
    rw [hlist, hpa, hpb]
  have hfilter : (appEditionResults 2 hpBook hpCheck).filter (·.interested) = [hpProbeB] := by
    rw [happ]
    rfl
  rw [aggregateBook_cons 2 hpBook hpCheck hpProbeB [] hfilter, happ]
  norm_num [mkBookEntry, hpBook, hpEntry, pymax, sellKey, hpProbeB, hpProbeA]

theorem C2_best_edition_stable_max_witness :
    ∃ b bs, (appEditionResults 2 hpBook hpCheck).filter (·.interested) = b :: bs
      ∧ pymax sellKey b bs ∈ b :: bs
      ∧ (∀ e ∈ b :: bs, sellKey e ≤ sellKey (pymax sellKey b bs))
      ∧ (b :: bs).find? (fun e => decide (sellKey (pymax sellKey b bs) ≤ sellKey e))
          = some (pymax sellKey b bs)
      ∧ hpEntry.isbn = (pymax sellKey b bs).isbn
      ∧ ∃ p, (pymax sellKey b bs).sell_price = some p
          ∧ hpEntry.sell_price = p ∧ hpEntry.profit = p - 2 :=
  C2_best_edition_stable_max 2 hpBook hpCheck hpEntry hpAggregate_eq

theorem C4_margin_chance_denominators_witness :
    hpEntry.margin_percent = hpEntry.profit / 2 * 100
    ∧ hpEntry.chance_percent
        = (hpEntry.editions_bought : ℚ) / (hpEntry.editions_checked : ℚ) * 100
    ∧ 1 ≤ hpEntry.editions_bought ∧ 1 ≤ hpEntry.editions_checked :=
  ⟨(C4_margin_chance_denominators 2 hpBook hpCheck hpEntry hpAggregate_eq).2.1 (by norm_num),
    (C4_margin_chance_denominators 2 hpBook hpCheck hpEntry hpAggregate_eq).2.2.1,
    (C4_margin_chance_denominators 2 hpBook hpCheck hpEntry hpAggregate_eq).2.2.2.1,
    (C4_margin_chance_denominators 2 hpBook hpCheck hpEntry hpAggregate_eq).2.2.2.2⟩

/-! ## Detector validation: `GeminiBookDetector._validate_books`
(gemini_book_detector.py) -/

/-- One element of the JSON array the detector returns: either not a JSON
object (dropped), or an object with the five read fields (`none` = absent
key). -/
inductive RawDetItem where
  | nonObj
  | obj (title : Option String) (author : Option String) (confidence : Option ℚ)
      (shelf : Option ℤ) (position : Option ℤ)
deriving DecidableEq

/-- One validated detection. -/
structure Detection where
  title : String
  author : Option String
  confidence : ℚ
  shelf : ℤ
  position : ℤ
deriving DecidableEq

/-- `GeminiBookDetector._validate_books`: drop non-objects and empty
(stripped) titles, default confidence 0.8 and drop below 0.5, default shelf 1
and position 0; `item.get('author') or None` collapses an empty author to
`None`. -/
def validate_books : List RawDetItem → List Detection
  | [] => []
  | .nonObj :: rest => validate_books rest
  | .obj t a c sh p :: rest =>
    if (pyStrip (t.getD "")) == "" then validate_books rest
    else if c.getD (4/5) < 1/2 then validate_books rest
    else
      { title := (pyStrip (t.getD ""))
        author := pyOrStr a none
        confidence := c.getD (4/5)
        shelf := sh.getD 1
        position := p.getD 0 } :: validate_books rest

theorem validate_books_mem (data : List RawDetItem) :
    ∀ d ∈ validate_books data, d.title ≠ "" ∧ 1/2 ≤ d.confidence := by
  induction data with
  | nil => intro d hd; simp [validate_books] at hd
  | cons item rest ih =>
    intro d hd
    cases item with
    | nonObj => exact ih d hd
    | obj t a c sh p =>
      rw [validate_books] at hd
      by_cases ht : ((pyStrip (t.getD "")) == "") = true
      · rw [if_pos ht] at hd
        exact ih d hd
      · rw [if_neg ht] at hd
        by_cases hc : c.getD (4/5) < 1/2
        · rw [if_pos hc] at hd
          exact ih d hd
        · rw [if_neg hc] at hd
          rcases List.mem_cons.mp hd with rfl | hd'
          · exact ⟨by simpa using ht, le_of_not_lt hc⟩
          · exact ih d hd'

/-- C10: every kept detection has a non-empty stripped title and confidence
at least 0.5; non-objects and empty-title objects are silently dropped (the
validator is total and simply skips them); a missing confidence defaults to
0.8 (and is kept), a missing shelf to 1, a missing position to 0. -/
theorem C10_validate_books_invariants (data : List RawDetItem) :
    (∀ d ∈ validate_books data, d.title ≠ "" ∧ 1/2 ≤ d.confidence)
    ∧ (∀ rest, validate_books (.nonObj :: rest) = validate_books rest)
    ∧ (∀ t a c sh p rest, (pyStrip (t.getD "")) = "" →
        validate_books (.obj t a c sh p :: rest) = validate_books rest)
    ∧ (∀ t a rest, pyStrip t ≠ "" →
        validate_books (.obj (some t) a none none none :: rest)
          = { title := pyStrip t, author := pyOrStr a none, confidence := 4/5,
              shelf := 1, position := 0 } :: validate_books rest) := by
  refine ⟨validate_books_mem data, fun rest => rfl, ?_, ?_⟩
  · intro t a c sh p rest ht
    rw [validate_books, if_pos (by simpa using ht)]
  · intro t a rest ht
    rw [validate_books, if_neg (by simpa using ht), if_neg (by norm_num)]
    rfl

theorem C10_validate_books_invariants_witness :
    (∀ d ∈ validate_books [.obj (some " x ") none none none none],
      d.title ≠ "" ∧ 1/2 ≤ d.confidence)
    ∧ validate_books [RawDetItem.obj (some " x ") none none none none]
        = [{ title := pyStrip " x ", author := pyOrStr none none, confidence := 4/5,
             shelf := 1, position := 0 }] :=
  ⟨(C10_validate_books_invariants [.obj (some " x ") none none none none]).1,
    (C10_validate_books_invariants []).2.2.2 " x " none [] (by decide)⟩

/-! ## Detector retry flow: `detect_books_from_image`
(gemini_book_detector.py lines 87-121) -/

/-- Outcome of one Gemini generation attempt: a parsed JSON array, a parse
failure (`ValueError`/`JSONDecodeError`), or any other exception. -/
inductive GeminiAttempt where
  | parsed (items : List RawDetItem)
  | parseFail
  | apiError (msg : String)
deriving DecidableEq

/-- `GeminiBookDetector.detect_books_from_image`: a parse failure on attempt
one retries; a parse failure on attempt two returns the empty list; any
other exception propagates (`.error`). -/
def detect_books_from_image (a1 a2 : GeminiAttempt) : Except String (List Detection) :=
  match a1 with
  | .parsed items => .ok (validate_books items)
  | .apiError m => .error m
  | .parseFail =>
    match a2 with
    | .parsed items => .ok (validate_books items)
    | .apiError m => .error m
    | .parseFail => .ok []

/-! ## Orchestration: `analyze` and its `generate` (app.py) -/

/-- Result of the input-validation prefix of `analyze` (lines 69-85). -/
inductive AnalyzeStart where
  | rejected (msg : String)
  | started (purchase_price : ℚ)
deriving DecidableEq

/-- The input-validation prefix of `analyze`: missing image and bad filename
are rejected before the pipeline; the purchase price is parsed from the form
value with `float(...)`, whose outcome is passed in as `priceParse`
(`none` = `ValueError`), and a parse failure falls back to 1.0. -/
def analyzeStart (hasImage : Bool) (filenameOk : Bool) (priceField : Option String)
    (priceParse : String → Option ℚ) : AnalyzeStart :=
  if !hasImage then .rejected "Geen afbeelding meegestuurd"
  else if !filenameOk then .rejected "Ongeldig bestandstype"
  else
    match priceField with
    | none => .started 1
    | some s =>
      match priceParse s with
      | some v => .started v
      | none => .started 1

/-- The summary dictionary of the `done` event. -/
structure Summary where
  detected : ℕ
  with_isbn : ℕ
  profitable : ℕ
  purchase_price : ℚ
deriving DecidableEq

/-- The typed progress events `generate` yields. -/
inductive Event where
  | status (step total : ℕ)
  | detected (count : ℕ)
  | isbn_progress (index : ℕ) (title : String)
  | isbn_found (index : ℕ) (title isbn : String) (edition_count : ℕ)
  | isbn_missing (index : ℕ) (title : String)
  | price_progress (index : ℕ) (title : String)
  | book_skip (index : ℕ) (title : String)
  | book_result (entry : BookEntry)
  | error (msg : String)
  | done (summary : Summary) (books : List BookEntry)
deriving DecidableEq

def Event.isError : Event → Bool
  | .error _ => true
  | _ => false

/-- Python `author or 'Onbekend'`-style fallback to a default string. -/
def pyStrOrDefault (a : Option String) (dflt : String) : String :=
  match a with
  | none => dflt
  | some s => if s == "" then dflt else s

/-- The `books_with_isbn` record built for one detection whose resolver call
returned a non-empty edition list (app.py lines 122-135). -/
def bwiOf (resolve : String → Option String → List Edition) (d : Detection) :
    Option BookWithIsbn :=
  match resolve d.title d.author with
  | [] => none
  | primary :: restEds =>
    some
      { title := primary.title
        author := if primary.authors.isEmpty then pyStrOrDefault d.author "Onbekend"
                  else String.intercalate ", " primary.authors
        isbns := primary :: restEds
        confidence := d.confidence
        detected_title := d.title
        detected_author := d.author
        shelf := d.shelf
        position := d.position }

/-- Events of the ISBN-lookup loop (step 2), with 1-based indices. -/
def isbnLoopEvents (resolve : String → Option String → List Edition) (i : ℕ) :
    List Detection → List Event
  | [] => []
  | d :: ds =>
    Event.isbn_progress (i + 1) d.title ::
    (match resolve d.title d.author with
      | [] => [Event.isbn_missing (i + 1) d.title]
      | primary :: restEds =>
        [Event.isbn_found (i + 1) primary.title primary.isbn (primary :: restEds).length])
    ++ isbnLoopEvents resolve (i + 1) ds

/-- Events of the pricing loop (step 3), with 1-based indices. -/
def priceLoopEvents (pp : ℚ) (checkRes : String → CheckBookResult) (i : ℕ) :
    List BookWithIsbn → List Event
  | [] => []
  | b :: bs =>
    Event.price_progress (i + 1) b.title ::
    (match aggregateBook pp b checkRes with
      | none => [Event.book_skip (i + 1) b.title]
      | some entry => [Event.book_result entry])
    ++ priceLoopEvents pp checkRes (i + 1) bs

/-- Relation used by `profitable.sort(key=..., reverse=True)`: profit
descending. -/
def profitGe (a b : BookEntry) : Prop := b.profit ≤ a.profit

instance : DecidableRel profitGe := fun a b => inferInstanceAs (Decidable (b.profit ≤ a.profit))

instance : IsTotal BookEntry profitGe := ⟨fun a b => le_total b.profit a.profit⟩

instance : IsTrans BookEntry profitGe := ⟨fun _ _ _ h1 h2 => le_trans h2 h1⟩

/-- Python's stable sort by profit descending (`list.sort` is stable;
`reverse=True` keeps ties in emission order). -/
def pySortByProfitDesc (l : List BookEntry) : List BookEntry :=
  List.insertionSort profitGe l

/-- The `profitable` list accumulated by the pricing loop, in emission
order (skipped books contribute nothing). -/
def producedEntries (pp : ℚ) (ds : List Detection)
    (resolve : String → Option String → List Edition)
    (checkRes : String → CheckBookResult) : List BookEntry :=
  (ds.filterMap (bwiOf resolve)).filterMap (fun b => aggregateBook pp b checkRes)

/-- The books list of the final `done` event: `profitable` after the
in-place stable sort by profit descending. -/
def doneBooks (pp : ℚ) (ds : List Detection)
    (resolve : String → Option String → List Edition)
    (checkRes : String → CheckBookResult) : List BookEntry :=
  pySortByProfitDesc (producedEntries pp ds resolve checkRes)

/-- The summary of the final `done` event. -/
def doneSummary (pp : ℚ) (ds : List Detection)
    (resolve : String → Option String → List Edition)
    (checkRes : String → CheckBookResult) : Summary :=
  ⟨ds.length, (ds.filterMap (bwiOf resolve)).length,
    (doneBooks pp ds resolve checkRes).length, pp⟩

/-- `analyze.generate` (app.py lines 89-225): the full event stream, with the
detector result, the resolver, the token, and the per-isbn `check_book`
outcomes passed in. -/
def generate (pp : ℚ) (detectRes : Except String (List Detection))
    (resolve : String → Option String → List Edition) (token : Option String)
    (checkRes : String → CheckBookResult) : List Event :=
  Event.status 1 3 ::
  match detectRes with
  | .error m => [.error m]
  | .ok ds =>
    .detected ds.length ::
    if ds.isEmpty then
      [.done ⟨0, 0, 0, pp⟩ []]
    else
      .status 2 3 ::
      isbnLoopEvents resolve 0 ds ++
      .status 3 3 ::
      match token with
      | none => [.error "BOEKENBALIE_API_TOKEN niet ingesteld"]
      | some _ =>
        priceLoopEvents pp checkRes 0 (ds.filterMap (bwiOf resolve)) ++
        [.done (doneSummary pp ds resolve checkRes) (doneBooks pp ds resolve checkRes)]

/-! ### C8: unparseable purchase price does not reject the request -/

/-- C8 counterexample: an unparseable `purchase_price` value does not reject
the request — `analyze` falls back to 1.0 and starts the pipeline. -/
theorem C8_unparseable_price_counterexample :
    analyzeStart true true (some "abc") (fun _ => none) = AnalyzeStart.started 1 := rfl

/-- C8 amended: a missing or invalid image is rejected before the pipeline
starts, but an unparseable `purchase_price` is not — it falls back to the
default 1.0 and the pipeline proceeds. -/
theorem C8_price_fallback (s : String) (priceParse : String → Option ℚ)
    (h : priceParse s = none) :
    analyzeStart true true (some s) priceParse = AnalyzeStart.started 1
    ∧ (∀ fOk pf pp, analyzeStart false fOk pf pp
        = AnalyzeStart.rejected "Geen afbeelding meegestuurd")
    ∧ (∀ pf pp, analyzeStart true false pf pp
        = AnalyzeStart.rejected "Ongeldig bestandstype") := by
  refine ⟨?_, fun fOk pf pp => rfl, fun pf pp => rfl⟩
  unfold analyzeStart
  simp only [h]
  rfl

theorem C8_price_fallback_witness :
    analyzeStart true true (some "abc") (fun _ => none) = AnalyzeStart.started 1 ∧
    analyzeStart true false none (fun _ => none)
      = AnalyzeStart.rejected "Ongeldig bestandstype" :=
  ⟨(C8_price_fallback "abc" (fun _ => none) rfl).1,
    (C8_price_fallback "abc" (fun _ => none) rfl).2.2 none (fun _ => none)⟩

/-! ### C9: double parse failure completes with an empty `done`, not an error -/

def noResult : CheckBookResult :=
  { interested := false, boekenbalie_price := none, profit := none,
    profit_margin := none, profitable := false, book_info := none }

/-- C9 counterexample: when both detection attempts fail to parse, the run
does not abort — it emits a `done` event with an empty result and no error
event. -/
theorem C9_parse_failure_counterexample :
    generate 1 (detect_books_from_image .parseFail .parseFail) (fun _ _ => []) (some "tk")
        (fun _ => noResult)
      = [.status 1 3, .detected 0, .done ⟨0, 0, 0, 1⟩ []]
    ∧ (generate 1 (detect_books_from_image .parseFail .parseFail) (fun _ _ => [])
        (some "tk") (fun _ => noResult)).countP Event.isError = 0 :=
  ⟨rfl, rfl⟩

/-- C9 amended: a double parse failure makes the detector return an empty
list, so the run completes with a single `done` event (empty result, no error
event); only a non-parse exception from the detector aborts the run, as
exactly one terminal error event. -/
theorem C9_detector_failure_behaviour (pp : ℚ)
    (resolve : String → Option String → List Edition) (token : Option String)
    (checkRes : String → CheckBookResult) :
    generate pp (detect_books_from_image .parseFail .parseFail) resolve token checkRes
      = [.status 1 3, .detected 0, .done ⟨0, 0, 0, pp⟩ []]
    ∧ (∀ m a2, generate pp (detect_books_from_image (.apiError m) a2) resolve token checkRes
        = [.status 1 3, .error m])
    ∧ (∀ m, generate pp (detect_books_from_image .parseFail (.apiError m))
          resolve token checkRes
        = [.status 1 3, .error m]) :=
  ⟨rfl, fun _ _ => rfl, fun _ => rfl⟩

/-! ### C5: the `done` event delivers a stable profit-descending sort -/

theorem filter_orderedInsert_profit (q : ℚ) (x : BookEntry) (l : List BookEntry) :
    (List.orderedInsert profitGe x l).filter (fun e => e.profit == q)
      = if x.profit == q then x :: l.filter (fun e => e.profit == q)
        else l.filter (fun e => e.profit == q) := by
  induction l with
  | nil =>
    by_cases hx : x.profit == q <;> simp [List.orderedInsert, List.filter, hx]
  | cons y ys ih =>
    simp only [List.orderedInsert]
    by_cases hr : profitGe x y
    · rw [if_pos hr]
      by_cases hx : x.profit == q <;> simp [List.filter_cons, hx]
    · rw [if_neg hr]
      rw [List.filter_cons]
      by_cases hy : y.profit == q
      · by_cases hx : x.profit == q
        · exfalso
          apply hr
          have hy' : y.profit = q := by simpa using hy
          have hx' : x.profit = q := by simpa using hx
          show y.profit ≤ x.profit
          rw [hy', hx']
        · simp [hy, hx, ih, List.filter_cons]
      · by_cases hx : x.profit == q <;> simp [hy, hx, ih, List.filter_cons]

theorem filter_insertionSort_profit (q : ℚ) (l : List BookEntry) :
    (List.insertionSort profitGe l).filter (fun e => e.profit == q)
      = l.filter (fun e => e.profit == q) := by
  induction l with
  | nil => rfl
  | cons x xs ih =>
    simp only [List.insertionSort]
    rw [filter_orderedInsert_profit, List.filter_cons]
    by_cases hx : x.profit == q <;> simp [hx, ih]

/-- C5: the final event of a run that reaches pricing is the `done` event; its
books list is the stable profit-descending sort of the produced entries (a
permutation of them, pairwise sorted by profit descending, with every
equal-profit group kept in emission order), and its summary carries the
detected / with-isbn / profitable counts and the purchase price. -/
theorem C5_done_event_sorted (pp : ℚ) (ds : List Detection)
    (resolve : String → Option String → List Edition) (tk : String)
    (checkRes : String → CheckBookResult) (hds : ds ≠ []) :
    (generate pp (.ok ds) resolve (some tk) checkRes).getLast?
        = some (.done (doneSummary pp ds resolve checkRes) (doneBooks pp ds resolve checkRes))
    ∧ doneBooks pp ds resolve checkRes
        = pySortByProfitDesc (producedEntries pp ds resolve checkRes)
    ∧ List.Perm (doneBooks pp ds resolve checkRes) (producedEntries pp ds resolve checkRes)
    ∧ (doneBooks pp ds resolve checkRes).Pairwise profitGe
    ∧ (∀ q : ℚ, (doneBooks pp ds resolve checkRes).filter (fun e => e.profit == q)
        = (producedEntries pp ds resolve checkRes).filter (fun e => e.profit == q))
    ∧ doneSummary pp ds resolve checkRes
        = ⟨ds.length, (ds.filterMap (bwiOf resolve)).length,
            (doneBooks pp ds resolve checkRes).length, pp⟩ := by
  refine ⟨?_, rfl, List.perm_insertionSort profitGe _,
    List.sorted_insertionSort profitGe _, fun q => filter_insertionSort_profit q _, rfl⟩
  rcases ds with _ | ⟨d, ds'⟩
  · exact absurd rfl hds
  · have hshape : generate pp (.ok (d :: ds')) resolve (some tk) checkRes
        = (Event.status 1 3 :: .detected (d :: ds').length :: .status 2 3 ::
            (isbnLoopEvents resolve 0 (d :: ds') ++ .status 3 3 ::
              priceLoopEvents pp checkRes 0 ((d :: ds').filterMap (bwiOf resolve))))
          ++ [.done (doneSummary pp (d :: ds') resolve checkRes)
                (doneBooks pp (d :: ds') resolve checkRes)] := by
      simp [generate, List.append_assoc]
    rw [hshape, List.getLast?_concat]

/-- A sample detection used by the C5 witness. -/
def sampleDetection : Detection :=
  { title := "T", author := none, confidence := 1, shelf := 1, position := 0 }

theorem C5_done_event_sorted_witness :
    (generate 2 (.ok [sampleDetection]) (fun _ _ => []) (some "tk")
        (fun _ => noResult)).getLast?
      = some (.done (doneSummary 2 [sampleDetection] (fun _ _ => []) (fun _ => noResult))
          (doneBooks 2 [sampleDetection] (fun _ _ => []) (fun _ => noResult)))
    ∧ List.Perm (doneBooks 2 [sampleDetection] (fun _ _ => []) (fun _ => noResult))
        (producedEntries 2 [sampleDetection] (fun _ _ => []) (fun _ => noResult))
    ∧ (doneBooks 2 [sampleDetection] (fun _ _ => []) (fun _ => noResult)).Pairwise profitGe :=
  ⟨(C5_done_event_sorted 2 [sampleDetection] (fun _ _ => []) "tk" (fun _ => noResult)
      (by simp)).1,
    (C5_done_event_sorted 2 [sampleDetection] (fun _ _ => []) "tk" (fun _ => noResult)
      (by simp)).2.2.1,
    (C5_done_event_sorted 2 [sampleDetection] (fun _ _ => []) "tk" (fun _ => noResult)
      (by simp)).2.2.2.1⟩

/-! ## Rate limiter: `BoekenbalieAPI._wait_for_rate_limit`
(boekenbalie_api.py lines 31-49)

The limiter's mutable state is embedded explicitly; `time.sleep` is
idealized as advancing the clock by exactly the requested amount, and the
current time at the start of each call is passed in as `now`. -/

structure RLState where
  lastRequestTime : ℚ
  requestTimestamps : List ℚ
  totalRequests : ℕ
deriving DecidableEq

def rlInit : RLState := ⟨0, [], 0⟩

/-- The sliding-window wait: when the retained window holds at least `cap`
timestamps, sleep until the oldest one is 60 seconds old
(`wait_time = 60 - (current_time - oldest_request)`). -/
def rlWindowAdjust (cap : ℕ) (ts : List ℚ) (now : ℚ) : ℚ :=
  if cap ≤ ts.length then
    match ts with
    | [] => now
    | h :: t =>
      if 0 < 60 - (now - t.foldl min h) then now + (60 - (now - t.foldl min h)) else now
  else now

/-- The minimum inter-request delay: sleep the remainder of `delay` since the
last request. -/
def rlDelayAdjust (delay last c1 : ℚ) : ℚ :=
  if c1 - last < delay then c1 + (delay - (c1 - last)) else c1

/-- One call of `_wait_for_rate_limit`: filter the timestamp window, apply
both waits, record the admission time, and count the request.  Returns the
new state and the admission time. -/
def rlStep (cap : ℕ) (delay : ℚ) (s : RLState) (now : ℚ) : RLState × ℚ :=
  let ts := s.requestTimestamps.filter (fun x => decide (now - x < 60))
  let c2 := rlDelayAdjust delay s.lastRequestTime (rlWindowAdjust cap ts now)
  (⟨c2, ts ++ [c2], s.totalRequests + 1⟩, c2)

/-- The admission times of a sequence of calls with entry times `es`. -/
def rlRun (cap : ℕ) (delay : ℚ) (s : RLState) : List ℚ → List ℚ
  | [] => []
  | e :: es => (rlStep cap delay s e).2 :: rlRun cap delay (rlStep cap delay s e).1 es

/-- A schedule is valid when each call's entry time is at least the previous
admission time (calls are sequential and the clock is monotone). -/
def rlValid (cap : ℕ) (delay : ℚ) (s : RLState) : List ℚ → Prop
  | [] => True
  | e :: es => s.lastRequestTime ≤ e ∧ rlValid cap delay (rlStep cap delay s e).1 es

/-- Number of admitted timestamps inside the sliding 60-second window ending
at `t` (the half-open window `(t - 60, t]`, matching the strict
`current_time - t < 60` retention test of the code). -/
def windowCount (l : List ℚ) (t : ℚ) : ℕ :=
  (l.filter (fun x => decide (t - x < 60) && decide (x ≤ t))).length

/-- `check_interest` with its `_wait_for_rate_limit` call made explicit:
exactly one request is recorded. -/
def checkInterestCall (cap : ℕ) (delay : ℚ) (s : RLState) (now : ℚ)
    (out : HttpResult InterestBody) : RLState × Option InterestBody :=
  ((rlStep cap delay s now).1, check_interest out)

/-- `get_price` with its `_wait_for_rate_limit` call made explicit. -/
def getPriceCall (cap : ℕ) (delay : ℚ) (s : RLState) (now : ℚ)
    (out : HttpResult PriceBody) : RLState × Option ℚ :=
  ((rlStep cap delay s now).1, get_price out)

/-! ### Rate limiter lemmas -/

theorem foldl_min_mem (h : ℚ) (t : List ℚ) : t.foldl min h ∈ h :: t := by
  induction t generalizing h with
  | nil => exact List.mem_singleton.mpr rfl
  | cons a as ih =>
    rcases List.mem_cons.mp (ih (min h a)) with h' | h'
    · rw [List.foldl_cons, h']
      rcases min_choice h a with h'' | h''
      · rw [h'']; exact List.mem_cons_self _ _
      · rw [h'']; exact List.mem_cons_of_mem _ (List.mem_cons_self _ _)
    · exact List.mem_cons_of_mem _ (List.mem_cons_of_mem _ h')

theorem foldl_min_le (h : ℚ) (t : List ℚ) : ∀ y ∈ h :: t, t.foldl min h ≤ y := by
  induction t generalizing h with
  | nil =>
    intro y hy
    rcases List.mem_singleton.mp hy with rfl
    exact le_refl _
  | cons a as ih =>
    intro y hy
    rw [List.foldl_cons]
    rcases List.mem_cons.mp hy with rfl | hy'
    · exact le_trans (ih (min y a) (min y a) (List.mem_cons_self _ _)) (min_le_left y a)
    · rcases List.mem_cons.mp hy' with rfl | hy''
      · exact le_trans (ih (min h y) (min h y) (List.mem_cons_self _ _)) (min_le_right h y)
      · exact ih (min h a) y (List.mem_cons_of_mem _ hy'')

theorem filter_sublist_filter_of_imp {α : Type} (l : List α) {p q : α → Bool}
    (h : ∀ a, p a = true → q a = true) : List.Sublist (l.filter p) (l.filter q) := by
  induction l with
  | nil => exact List.Sublist.refl _
  | cons a as ih =>
    rw [List.filter_cons, List.filter_cons]
    by_cases hp : p a = true
    · rw [if_pos hp, if_pos (h a hp)]
      exact ih.cons₂ a
    · rw [if_neg hp]
      by_cases hq : q a = true
      · rw [if_pos hq]
        exact ih.cons a
      · rw [if_neg hq]
        exact ih

theorem sublist_filter_of_forall {α : Type} {l l₂ : List α} {p : α → Bool}
    (h : List.Sublist l l₂) (hall : ∀ x ∈ l, p x = true) :
    List.Sublist l (l₂.filter p) := by
  induction h with
  | slnil => exact List.nil_sublist _
  | cons a h ih =>
    rw [List.filter_cons]
    by_cases hpa : p a = true
    · rw [if_pos hpa]
      exact (ih hall).cons a
    · rw [if_neg hpa]
      exact ih hall
  | cons₂ a h ih =>
    rw [List.filter_cons, if_pos (hall a (List.mem_cons_self _ _))]
    exact (ih (fun x hx => hall x (List.mem_cons_of_mem _ hx))).cons₂ a

theorem length_filter_lt_of_mem_not {α : Type} {p : α → Bool} {l : List α} {x : α}
    (hx : x ∈ l) (hpx : p x = false) : (l.filter p).length < l.length := by
  induction l with
  | nil => cases hx
  | cons a as ih =>
    rw [List.filter_cons]
    rcases List.mem_cons.mp hx with rfl | hx'
    · rw [hpx]
      exact Nat.lt_succ_of_le (List.length_filter_le _ _)
    · by_cases hpa : p a = true
      · rw [if_pos hpa, List.length_cons, List.length_cons]
        exact Nat.succ_lt_succ (ih hx')
      · rw [if_neg hpa]
        exact Nat.lt_succ_of_lt (ih hx')

theorem le_rlWindowAdjust (cap : ℕ) (ts : List ℚ) (now : ℚ) :
    now ≤ rlWindowAdjust cap ts now := by
  unfold rlWindowAdjust
  by_cases hlen : cap ≤ ts.length
  · rw [if_pos hlen]
    cases ts with
    | nil => exact le_refl _
    | cons h t =>
      dsimp only
      by_cases hw : 0 < 60 - (now - t.foldl min h)
      · rw [if_pos hw]; linarith
      · rw [if_neg hw]
  · rw [if_neg hlen]

theorem le_rlDelayAdjust (delay last c1 : ℚ) : c1 ≤ rlDelayAdjust delay last c1 := by
  unfold rlDelayAdjust
  by_cases hd : c1 - last < delay
  · rw [if_pos hd]; linarith
  · rw [if_neg hd]

theorem rlWindowAdjust_cons_ge (cap : ℕ) (h0 : ℚ) (t0 : List ℚ) (now : ℚ)
    (hlen : cap ≤ (h0 :: t0).length) :
    t0.foldl min h0 + 60 ≤ rlWindowAdjust cap (h0 :: t0) now := by
  unfold rlWindowAdjust
  rw [if_pos hlen]
  dsimp only
  by_cases hw : 0 < 60 - (now - t0.foldl min h0)
  · rw [if_pos hw]; linarith
  · rw [if_neg hw]; linarith

theorem rlStep_eq (cap : ℕ) (delay : ℚ) (s : RLState) (now : ℚ) :
    rlStep cap delay s now
      = (⟨rlDelayAdjust delay s.lastRequestTime
            (rlWindowAdjust cap (s.requestTimestamps.filter (fun x => decide (now - x < 60))) now),
          s.requestTimestamps.filter (fun x => decide (now - x < 60))
            ++ [rlDelayAdjust delay s.lastRequestTime
                  (rlWindowAdjust cap
                    (s.requestTimestamps.filter (fun x => decide (now - x < 60))) now)],
          s.totalRequests + 1⟩,
        rlDelayAdjust delay s.lastRequestTime
          (rlWindowAdjust cap (s.requestTimestamps.filter (fun x => decide (now - x < 60))) now)) :=
  rfl

/-- The induction invariant: `hist` is the list of all admitted times so far;
the stored window is a sub-multiset of it that contains every admitted time
newer than 60 seconds before the last admission; every sliding window holds
at most `cap` admissions. -/
def RLInv (cap : ℕ) (hist : List ℚ) (s : RLState) : Prop :=
  (∀ x ∈ hist, x ≤ s.lastRequestTime)
  ∧ List.Sublist s.requestTimestamps hist
  ∧ List.Sublist (hist.filter (fun x => decide (s.lastRequestTime - x < 60)))
      s.requestTimestamps
  ∧ ∀ t : ℚ, windowCount hist t ≤ cap

theorem rlStep_inv (cap : ℕ) (delay : ℚ) (s : RLState) (now : ℚ) (hist : List ℚ)
    (hcap : 1 ≤ cap) (hle : s.lastRequestTime ≤ now) (hinv : RLInv cap hist s) :
    now ≤ (rlStep cap delay s now).2
    ∧ (rlStep cap delay s now).1.lastRequestTime = (rlStep cap delay s now).2
    ∧ RLInv cap (hist ++ [(rlStep cap delay s now).2]) (rlStep cap delay s now).1 := by
  obtain ⟨hbound, hsub, hrec, hwin⟩ := hinv
  set F := s.requestTimestamps.filter (fun x => decide (now - x < 60)) with hF
  set c1 := rlWindowAdjust cap F now with hc1
  set a := rlDelayAdjust delay s.lastRequestTime c1 with ha
  have hstep2 : (rlStep cap delay s now).2 = a := rfl
  have hstep1 : (rlStep cap delay s now).1 = ⟨a, F ++ [a], s.totalRequests + 1⟩ := rfl
  have hnow_c1 : now ≤ c1 := le_rlWindowAdjust cap F now
  have hc1a : c1 ≤ a := le_rlDelayAdjust delay s.lastRequestTime c1
  have hnowa : now ≤ a := le_trans hnow_c1 hc1a
  have hFsub : List.Sublist F s.requestTimestamps := by
    rw [hF]; exact List.filter_sublist _
  have hFhist : List.Sublist F hist := hFsub.trans hsub
  have hchain : List.Sublist (hist.filter (fun x => decide (now - x < 60))) F := by
    have h3 : List.Sublist (hist.filter (fun x => decide (now - x < 60)))
        s.requestTimestamps := by
      refine List.Sublist.trans (filter_sublist_filter_of_imp hist ?_) hrec
      intro x hx
      rw [decide_eq_true_eq] at hx ⊢
      linarith
    rw [hF]
    exact sublist_filter_of_forall h3 (fun x hx => (List.mem_filter.mp hx).2)
  have hFlen : F.length ≤ cap := by
    have h1 : List.Sublist F (hist.filter (fun x => decide (now - x < 60))) := by
      rw [hF]
      exact List.Sublist.filter _ hsub
    have h2 : hist.filter (fun x => decide (now - x < 60))
        = hist.filter (fun x => decide (now - x < 60) && decide (x ≤ now)) := by
      apply List.filter_congr
      intro x hx
      have hxle : x ≤ now := le_trans (hbound x hx) hle
      simp [hxle]
    calc F.length ≤ (hist.filter (fun x => decide (now - x < 60))).length := h1.length_le
      _ = windowCount hist now := by rw [h2]; rfl
      _ ≤ cap := hwin now
  have hA : ∀ t : ℚ, a ≤ t → t - a < 60 → windowCount hist t + 1 ≤ cap := by
    intro t hat hta
    by_cases hcapF : cap ≤ F.length
    · obtain ⟨f0, ft, hFcons⟩ : ∃ f0 ft, F = f0 :: ft := by
        cases hFc : F with
        | nil =>
          rw [hFc] at hcapF
          simp at hcapF
          omega
        | cons f0 ft => exact ⟨f0, ft, rfl⟩
      have holdF : ft.foldl min f0 ∈ F := by
        rw [hFcons]
        exact foldl_min_mem f0 ft
      have hoa : ft.foldl min f0 + 60 ≤ c1 := by
        rw [hc1, hFcons]
        exact rlWindowAdjust_cons_ge cap f0 ft now (by rw [← hFcons]; exact hcapF)
      have hoa' : ft.foldl min f0 + 60 ≤ a := le_trans hoa hc1a
      have holdnow : now - ft.foldl min f0 < 60 := by
        rw [hF] at holdF
        have := (List.mem_filter.mp holdF).2
        rwa [decide_eq_true_eq] at this
      have hsub1 : List.Sublist
          (hist.filter (fun x => decide (t - x < 60) && decide (x ≤ t)))
          (hist.filter (fun x => decide (ft.foldl min f0 < x))) := by
        apply filter_sublist_filter_of_imp
        intro x hx
        rw [Bool.and_eq_true, decide_eq_true_eq, decide_eq_true_eq] at hx
        rw [decide_eq_true_eq]
        linarith [hx.1]
      have h5 : hist.filter (fun x => decide (ft.foldl min f0 < x))
          = (hist.filter (fun x => decide (now - x < 60))).filter
              (fun x => decide (ft.foldl min f0 < x)) := by
        rw [List.filter_filter]
        apply List.filter_congr
        intro x _
        by_cases ho : ft.foldl min f0 < x
        · have hnx : now - x < 60 := by linarith
          simp [ho, hnx]
        · simp [ho]
      have hsub2 : List.Sublist (hist.filter (fun x => decide (ft.foldl min f0 < x)))
          (F.filter (fun x => decide (ft.foldl min f0 < x))) := by
        rw [h5]
        exact List.Sublist.filter _ hchain
      have hlt : (F.filter (fun x => decide (ft.foldl min f0 < x))).length < F.length :=
        length_filter_lt_of_mem_not holdF (by simp)
      have hcount : windowCount hist t
          ≤ (F.filter (fun x => decide (ft.foldl min f0 < x))).length :=
        (hsub1.trans hsub2).length_le
      omega
    · push_neg at hcapF
      have hsub1 : List.Sublist
          (hist.filter (fun x => decide (t - x < 60) && decide (x ≤ t)))
          (hist.filter (fun x => decide (now - x < 60))) := by
        apply filter_sublist_filter_of_imp
        intro x hx
        rw [Bool.and_eq_true, decide_eq_true_eq, decide_eq_true_eq] at hx
        rw [decide_eq_true_eq]
        linarith [hx.1]
      have hcount : windowCount hist t ≤ F.length := (hsub1.trans hchain).length_le
      omega
  rw [hstep1, hstep2]
  refine ⟨hnowa, rfl, ?_, ?_, ?_, ?_⟩
  · intro x hx
    rcases List.mem_append.mp hx with hx' | hx'
    · exact le_trans (hbound x hx') (le_trans hle hnowa)
    · rcases List.mem_singleton.mp hx' with rfl
      exact le_refl _
  · exact List.Sublist.append hFhist (List.Sublist.refl _)
  · rw [List.filter_append]
    have hfa : ([a] : List ℚ).filter (fun x => decide (a - x < 60)) = [a] := by
      have h60 : a - a < (60 : ℚ) := by
        rw [sub_self]
        norm_num
      simp [List.filter, h60]
    rw [hfa]
    refine List.Sublist.append ?_ (List.Sublist.refl _)
    refine List.Sublist.trans (filter_sublist_filter_of_imp hist ?_) hchain
    intro x hx
    rw [decide_eq_true_eq] at hx ⊢
    linarith
  · intro t
    unfold windowCount
    rw [List.filter_append, List.length_append]
    by_cases hin : (decide (t - a < 60) && decide (a ≤ t)) = true
    · have hin' := hin
      rw [Bool.and_eq_true, decide_eq_true_eq, decide_eq_true_eq] at hin'
      have hAt := hA t hin'.2 hin'.1
      have hone : (([a] : List ℚ).filter
          (fun x => decide (t - x < 60) && decide (x ≤ t))).length ≤ 1 := by
        calc _ ≤ ([a] : List ℚ).length := List.length_filter_le _ _
          _ = 1 := rfl
      unfold windowCount at hAt
      omega
    · have hzero : (([a] : List ℚ).filter
          (fun x => decide (t - x < 60) && decide (x ≤ t))) = [] := by
        rw [Bool.not_eq_true] at hin
        simp [List.filter, hin]
      rw [hzero]
      have := hwin t
      unfold windowCount at this
      simpa using this

theorem rlRun_window_bound (cap : ℕ) (delay : ℚ) (es : List ℚ) :
    ∀ (s : RLState) (hist : List ℚ), 1 ≤ cap → RLInv cap hist s → rlValid cap delay s es →
      ∀ t : ℚ, windowCount (hist ++ rlRun cap delay s es) t ≤ cap := by
  induction es with
  | nil =>
    intro s hist _ hinv _ t
    rw [rlRun, List.append_nil]
    exact hinv.2.2.2 t
  | cons e es ih =>
    intro s hist hcap hinv hvalid t
    obtain ⟨hle, hval'⟩ := hvalid
    obtain ⟨_, _, hinv'⟩ := rlStep_inv cap delay s e hist hcap hle hinv
    rw [rlRun]
    have hassoc : hist ++ ((rlStep cap delay s e).2
          :: rlRun cap delay (rlStep cap delay s e).1 es)
        = (hist ++ [(rlStep cap delay s e).2])
          ++ rlRun cap delay (rlStep cap delay s e).1 es := by
      simp
    rw [hassoc]
    exact ih _ _ hcap hinv' hval' t

/-! ### The 60-requests-per-minute scenario -/

theorem foldl_min_replicate_zero (n : ℕ) :
    (List.replicate n (0 : ℚ)).foldl min 0 = 0 := by
  induction n with
  | zero => rfl
  | succ n ih =>
    rw [List.replicate_succ, List.foldl_cons, min_self]
    exact ih

theorem filter_replicate_zero_window (n : ℕ) :
    (List.replicate n (0 : ℚ)).filter (fun x => decide ((0 : ℚ) - x < 60))
      = List.replicate n 0 := by
  apply List.filter_eq_self.mpr
  intro a ha
  rw [List.eq_of_mem_replicate ha, decide_eq_true_eq]
  norm_num

theorem rlWindowAdjust_empty : rlWindowAdjust 1 ([] : List ℚ) 0 = 0 := by
  unfold rlWindowAdjust
  rw [if_neg (by simp)]

theorem rlDelayAdjust_zero : rlDelayAdjust 0 0 (0 : ℚ) = 0 := by
  unfold rlDelayAdjust
  rw [if_neg (by norm_num)]

theorem rlStep_scenario_fill (k n : ℕ) (hk : k < 60) :
    rlStep 60 0 ⟨0, List.replicate k 0, n⟩ 0 = (⟨0, List.replicate (k + 1) 0, n + 1⟩, 0) := by
  rw [rlStep_eq]
  dsimp only
  rw [filter_replicate_zero_window]
  have hwa : rlWindowAdjust 60 (List.replicate k (0 : ℚ)) 0 = 0 := by
    unfold rlWindowAdjust
    rw [List.length_replicate, if_neg (by omega)]
  have hda : rlDelayAdjust 0 0 (0 : ℚ) = 0 := by
    unfold rlDelayAdjust
    rw [if_neg (by norm_num)]
  rw [hwa, hda, ← List.replicate_succ']

theorem rlStep_scenario_block (n : ℕ) :
    rlStep 60 0 ⟨0, List.replicate 60 0, n⟩ 0
      = (⟨60, List.replicate 60 0 ++ [60], n + 1⟩, 60) := by
  rw [rlStep_eq]
  dsimp only
  rw [filter_replicate_zero_window]
  have hwa : rlWindowAdjust 60 (List.replicate 60 (0 : ℚ)) 0 = 60 := by
    unfold rlWindowAdjust
    rw [List.length_replicate, if_pos (le_refl 60)]
    have hrep : List.replicate 60 (0 : ℚ) = 0 :: List.replicate 59 0 := rfl
    rw [hrep]
    dsimp only
    rw [foldl_min_replicate_zero]
    norm_num
  have hda : rlDelayAdjust 0 0 (60 : ℚ) = 60 := by
    unfold rlDelayAdjust
    rw [if_neg (by norm_num)]
  rw [hwa, hda]

theorem rlRun_scenario (k : ℕ) (hk : k ≤ 60) : ∀ n : ℕ,
    rlRun 60 0 ⟨0, List.replicate (60 - k) 0, n⟩ (List.replicate (k + 1) 0)
      = List.replicate k 0 ++ [60] := by
  induction k with
  | zero =>
    intro n
    rw [show (60 : ℕ) - 0 = 60 from rfl]
    rw [show List.replicate (0 + 1) (0 : ℚ) = [0] from rfl]
    rw [rlRun, rlRun, rlStep_scenario_block n]
    rfl
  | succ k ih =>
    intro n
    have hk' : k ≤ 60 := by omega
    have hlt : 60 - (k + 1) < 60 := by omega
    rw [List.replicate_succ, rlRun, rlStep_scenario_fill (60 - (k + 1)) n hlt]
    dsimp only
    have harith : 60 - (k + 1) + 1 = 60 - k := by omega
    rw [harith, ih hk' (n + 1), List.replicate_succ, List.cons_append]

theorem rlRun_61 :
    rlRun 60 0 rlInit (List.replicate 61 0) = List.replicate 60 0 ++ [60] := by
  have h := rlRun_scenario 60 (le_refl 60) 0
  rw [show (60 : ℕ) - 60 = 0 from rfl] at h
  exact h

/-- C6: (1) for every cap `1 ≤ cap`, every minimum delay, and every valid
sequential call schedule, no sliding 60-second window `(t-60, t]` ever
contains more than `cap` admitted requests; (2) with a 60-per-minute cap,
zero minimum delay and 61 calls issued instantaneously at time 0, the first
60 are admitted at once and the 61st is admitted exactly 60 seconds after the
first; (3) each interest check and each price lookup records exactly one
request against the window. -/
theorem C6_rate_limiter_sliding_window (cap : ℕ) (delay : ℚ) (es : List ℚ) (t : ℚ)
    (hcap : 1 ≤ cap) (hvalid : rlValid cap delay rlInit es) :
    windowCount (rlRun cap delay rlInit es) t ≤ cap
    ∧ rlRun 60 0 rlInit (List.replicate 61 0) = List.replicate 60 0 ++ [60]
    ∧ (∀ (s : RLState) (now : ℚ) (out : HttpResult InterestBody),
        (checkInterestCall cap delay s now out).1.totalRequests = s.totalRequests + 1)
    ∧ (∀ (s : RLState) (now : ℚ) (out : HttpResult PriceBody),
        (getPriceCall cap delay s now out).1.totalRequests = s.totalRequests + 1) := by
  refine ⟨?_, rlRun_61, fun s now out => rfl, fun s now out => rfl⟩
  have hinv0 : RLInv cap [] rlInit := by
    refine ⟨?_, ?_, ?_, ?_⟩
    · intro x hx
      cases hx
    · exact List.Sublist.refl _
    · exact List.Sublist.refl _
    · intro t'
      exact Nat.zero_le cap
  have h := rlRun_window_bound cap delay es rlInit [] hcap hinv0 hvalid t
  simpa using h

theorem C6_rate_limiter_sliding_window_witness :
    windowCount (rlRun 1 0 rlInit [0, 0]) 0 ≤ 1 := by
  have hs1 : (rlStep 1 0 rlInit 0).1.lastRequestTime = 0 := by
    rw [rlStep_eq]
    dsimp only [rlInit]
    rw [show (([] : List ℚ).filter (fun x => decide ((0 : ℚ) - x < 60))) = [] from rfl]
    rw [rlWindowAdjust_empty, rlDelayAdjust_zero]
  have hvalid : rlValid 1 0 rlInit [0, 0] := by
    refine ⟨le_refl 0, ?_, trivial⟩
    rw [hs1]
  exact (C6_rate_limiter_sliding_window 1 0 [0, 0] 0 (le_refl 1) hvalid).1

end BookFinder
